import Mathlib

/-!
Verification of the pinger probing engine against its specification.

This file gives a shallow embedding, in Lean 4, of the parts of the
tomc603/pinger sources that the checked properties are about:

* the wire-level probe/reply codec (`Magic`, `Body`, `ValidateMagic` from
  `data_protocol.go` / `data/data.go`),
* the ICMP listener's echo-reply handling (`v4Listener` in
  `listener_icmp.go` / `receiver/main.go`),
* the destination read/write paths (`GetDestinations` and
  `Destination.Commit` in `data/destination.go`),
* the destination lifecycle (`Destination.Start` / `Destination.Stop`),
* the reconciliation pass (`watchDestinations` in `sender/destwatcher.go`),
* the result writer (`resultWriter` in `receiver/main.go` together with
  `BatchResultWriter`),
* the sender's dispatch validation (`ping` in `sender/main.go`).

Bytes are modelled as natural numbers (always < 256 when produced by the
code); byte buffers as `List Nat`; Go's machine integers as `Nat`/`Int`
with explicit reduction modulo 2^w where a Go conversion truncates.
Go functions that can panic at runtime are modelled with `Option` (where
`none` marks the panic) or `Except` (where `Except.error` marks either a
returned Go `error` or, where noted, a runtime panic).
-/

namespace Pinger

/-! ### Byte-level helpers

`binary.Write`/`binary.Read` with `binary.LittleEndian` lay fixed-width
integers out least-significant byte first.  `natToLE w n` is the `w`-byte
little-endian image of `n` (mod 2^(8w)); `leToNat` reassembles it.
-/

def natToLE : Nat → Nat → List Nat
  | 0, _ => []
  | w + 1, n => n % 256 :: natToLE w (n / 256)

def leToNat : List Nat → Nat
  | [] => 0
  | b :: bs => b + 256 * leToNat bs

theorem natToLE_length (w n : Nat) : (natToLE w n).length = w := by
  induction w generalizing n with
  | zero => rfl
  | succ w ih => simp [natToLE, ih]

theorem leToNat_natToLE (w n : Nat) : leToNat (natToLE w n) = n % 256 ^ w := by
  induction w generalizing n with
  | zero => simp [natToLE, leToNat, Nat.mod_one]
  | succ w ih =>
    have h1 : n = 256 * (n / 256) + n % 256 := (Nat.div_add_mod n 256).symm
    have h2 : n / 256 = 256 ^ w * (n / 256 / 256 ^ w) + n / 256 % 256 ^ w :=
      (Nat.div_add_mod (n / 256) (256 ^ w)).symm
    have hr : n % 256 < 256 := Nat.mod_lt _ (by norm_num)
    have hq : n / 256 % 256 ^ w < 256 ^ w :=
      Nat.mod_lt _ (Nat.pos_pow_of_pos w (by norm_num))
    have h5 : 256 * (256 ^ w * (n / 256 / 256 ^ w)) =
        256 ^ w * 256 * (n / 256 / 256 ^ w) := by ring
    have hn : n = (n % 256 + 256 * (n / 256 % 256 ^ w)) +
        256 ^ w * 256 * (n / 256 / 256 ^ w) := by
      have h4 : 256 * (n / 256) =
          256 * (256 ^ w * (n / 256 / 256 ^ w)) + 256 * (n / 256 % 256 ^ w) := by
        rw [← Nat.mul_add, ← h2]
      omega
    have hlt : n % 256 + 256 * (n / 256 % 256 ^ w) < 256 ^ w * 256 := by
      have h3 : 256 * (n / 256 % 256 ^ w + 1) ≤ 256 * 256 ^ w :=
        Nat.mul_le_mul_left _ hq
      have h6 : 256 * (n / 256 % 256 ^ w + 1) = 256 * (n / 256 % 256 ^ w) + 256 := by ring
      have h7 : 256 * 256 ^ w = 256 ^ w * 256 := by ring
      omega
    have key : n % (256 ^ w * 256) = n % 256 + 256 * (n / 256 % 256 ^ w) := by
      conv_lhs => rw [hn]
      rw [Nat.add_mul_mod_self_left, Nat.mod_eq_of_lt hlt]
    calc leToNat (natToLE (w + 1) n) = n % 256 + 256 * (n / 256 % 256 ^ w) := by
          simp [natToLE, leToNat, ih]
      _ = n % 256 ^ (w + 1) := by rw [pow_succ, key]

/-- Go's conversion of a signed two's-complement `int64` value to its
unsigned 64-bit image: reduce modulo 2^64 (`Int.emod` is nonnegative for a
positive modulus). -/
def intToUint64 (t : Int) : Nat := (t % (2 ^ 64 : Int)).toNat

/-- Reading 8 little-endian bytes back as a signed `int64`: values at or
above 2^63 represent negative numbers. -/
def uint64ToInt (n : Nat) : Int :=
  if n < 2 ^ 63 then (n : Int) else (n : Int) - 2 ^ 64

theorem uint64ToInt_intToUint64 (t : Int)
    (h1 : -(2 ^ 63) ≤ t) (h2 : t < 2 ^ 63) :
    uint64ToInt (intToUint64 t) = t := by
  unfold uint64ToInt intToUint64
  split <;> omega

/-! ### Protocol codec (`data_protocol.go`, `data/data.go`)

`var MagicV1 Magic = 146` and `var DataOrder = binary.LittleEndian`.
`Magic` is a `uint8`; `Magic.Decode` is `binary.Read` of one byte, which
fails exactly on an empty buffer and otherwise yields the first byte.
-/

def MagicV1 : Nat := 146

def Magic.Decode (data : List Nat) : Except String Nat :=
  match data with
  | [] => Except.error "EOF"
  | b :: _ => Except.ok b

/-- The function `Magic.Encode`: `binary.Write` of the single byte. -/
def Magic.Encode (m : Nat) : List Nat := [m % 256]

/--
Function `ValidateMagic` from `data_protocol.go`: decode the magic byte; on a
decode error return `false`; otherwise compare against `MagicV1` in a
`switch` whose `default` returns `false`.
-/
def ValidateMagic (data : List Nat) : Bool :=
  match Magic.Decode data with
  | Except.error _ => false
  | Except.ok magic => magic == MagicV1

/--
Structure `Body` from `data_protocol.go`: `Timestamp int64`, `Site uint32`,
`Host uint32`, (de)serialised by `binary` with the little-endian
`DataOrder`.
-/
structure Body where
  Timestamp : Int
  Site : Nat
  Host : Nat
deriving Repr, DecidableEq

/-- The method `Body.Encode`: `binary.Write(buf, DataOrder, r)` lays the three fields
out in declaration order, little-endian: 8 + 4 + 4 bytes. -/
def Body.Encode (b : Body) : List Nat :=
  natToLE 8 (intToUint64 b.Timestamp) ++ natToLE 4 b.Site ++ natToLE 4 b.Host

/-- The method `Body.Decode`: `binary.Read(bytes.NewReader(data), DataOrder, r)` reads
exactly 16 bytes; with fewer available it fails (`io.EOF` /
`io.ErrUnexpectedEOF`) leaving the receiver untouched; extra trailing
bytes are simply not consumed. -/
def Body.Decode (data : List Nat) : Except String Body :=
  if data.length < 16 then Except.error "unexpected EOF"
  else Except.ok
    { Timestamp := uint64ToInt (leToNat (data.take 8))
      Site := leToNat ((data.drop 8).take 4)
      Host := leToNat ((data.drop 12).take 4) }

/-- A `Body` value that a Go `data.Body` can actually hold: the timestamp
fits in `int64`, site and host fit in `uint32`. -/
def Body.Wf (b : Body) : Prop :=
  -(2 ^ 63) ≤ b.Timestamp ∧ b.Timestamp < 2 ^ 63 ∧ b.Site < 2 ^ 32 ∧ b.Host < 2 ^ 32

instance (b : Body) : Decidable b.Wf := by
  unfold Body.Wf; infer_instance

theorem intToUint64_lt (t : Int) : intToUint64 t < 2 ^ 64 := by
  unfold intToUint64; omega

/-- C3: the envelope body codec round-trips exactly: for every Body value
b (int64 timestamp, uint32 site, uint32 host), Decode(Encode(b)) == b and
Encode(b) is exactly 16 bytes in the little-endian layout; and for every
buffer shorter than 16 bytes, Decode returns an error (no panic, the
caller continues). -/
theorem C3_body_codec_roundtrip (b : Body) (hb : b.Wf) :
    Body.Decode (Body.Encode b) = Except.ok b ∧
    (Body.Encode b).length = 16 ∧
    (∀ buf : List Nat, buf.length < 16 →
      Body.Decode buf = Except.error "unexpected EOF") := by
  obtain ⟨h1, h2, h3, h4⟩ := hb
  have hlen : (Body.Encode b).length = 16 := by
    simp [Body.Encode, natToLE_length]
  refine ⟨?_, hlen, ?_⟩
  · cases b with
    | mk ts site host =>
      simp only [Body.Wf] at h1 h2 h3 h4
      unfold Body.Decode
      rw [if_neg (by omega)]
      have lenA : (natToLE 8 (intToUint64 ts)).length = 8 := natToLE_length _ _
      have lenB : (natToLE 4 site).length = 4 := natToLE_length _ _
      have lenC : (natToLE 4 host).length = 4 := natToLE_length _ _
      have lenAB : (natToLE 8 (intToUint64 ts) ++ natToLE 4 site).length = 12 := by
        simp [lenA, lenB]
      have henc : Body.Encode ⟨ts, site, host⟩ =
          (natToLE 8 (intToUint64 ts) ++ natToLE 4 site) ++ natToLE 4 host := rfl
      have htake : (Body.Encode ⟨ts, site, host⟩).take 8 = natToLE 8 (intToUint64 ts) := by
        rw [henc, List.append_assoc, List.take_left' lenA]
      have hdrop8 : ((Body.Encode ⟨ts, site, host⟩).drop 8).take 4 = natToLE 4 site := by
        rw [henc, List.append_assoc, List.drop_left' lenA, List.take_left' lenB]
      have hdrop12 : ((Body.Encode ⟨ts, site, host⟩).drop 12).take 4 = natToLE 4 host := by
        rw [henc, List.drop_left' lenAB, List.take_of_length_le (by rw [lenC])]
      rw [htake, hdrop8, hdrop12]
      have hts : uint64ToInt (leToNat (natToLE 8 (intToUint64 ts))) = ts := by
        rw [leToNat_natToLE]
        have hb64 : intToUint64 ts < 256 ^ 8 := by
          have := intToUint64_lt ts
          norm_num at this ⊢
          omega
        rw [Nat.mod_eq_of_lt hb64]
        exact uint64ToInt_intToUint64 ts h1 h2
      have hsite : leToNat (natToLE 4 site) = site := by
        rw [leToNat_natToLE]
        exact Nat.mod_eq_of_lt (by norm_num at h3 ⊢; omega)
      have hhost : leToNat (natToLE 4 host) = host := by
        rw [leToNat_natToLE]
        exact Nat.mod_eq_of_lt (by norm_num at h4 ⊢; omega)
      rw [hts, hsite, hhost]
  · intro buf hbuf
    unfold Body.Decode
    rw [if_pos hbuf]

/-- Witness for C3 at a concrete body. -/
theorem C3_body_codec_roundtrip_witness :
    Body.Decode (Body.Encode ⟨-123456789, 101, 62⟩) = Except.ok ⟨-123456789, 101, 62⟩ ∧
    Body.Decode [1, 2, 3] = Except.error "unexpected EOF" := by
  have h := C3_body_codec_roundtrip ⟨-123456789, 101, 62⟩ (by decide)
  exact ⟨h.1, h.2.2 [1, 2, 3] (by decide)⟩

/-- C4: ValidateMagic returns true for a buffer if and only if its first
byte equals the single supported magic constant 146 (`MagicV1`); every
empty or mismatched buffer yields false, and the function is total (it
never panics: a decode failure on an empty buffer is mapped to false). -/
theorem C4_validateMagic (data : List Nat) :
    ValidateMagic data = true ↔ data.head? = some 146 := by
  cases data <;> simp [ValidateMagic, Magic.Decode, MagicV1]

/-! ### ICMP listener echo-reply handling (`listener_icmp.go`)

`v4Listener` (and identically `v6Listener`), on an echo reply, runs

    if ValidateMagic(echoReply.Data[0:unsafe.Sizeof(MagicV1)]) {
      var echoBody Body
      err := echoBody.Decode(echoReply.Data[unsafe.Sizeof(MagicV1) : unsafe.Sizeof(echoBody)+1])
      ...
    }

`unsafe.Sizeof(MagicV1) = 1` and `unsafe.Sizeof(echoBody) = 16`, so the
two slice expressions are `Data[0:1]` and `Data[1:17]`.  A Go slice
expression `s[lo:hi]` panics at runtime when `hi > cap(s)` (for the echo
data produced by `icmp.ParseMessage`, `cap = len`).  `goSlice` returns
`none` exactly on that panic.
-/

def goSlice (l : List Nat) (lo hi : Nat) : Option (List Nat) :=
  if lo ≤ hi ∧ hi ≤ l.length then some ((l.drop lo).take (hi - lo)) else none

/-- RTT computation `uint32((recvTS - sendTS) / time.Millisecond)`: Go truncated division
of the nanosecond difference by 10^6, then truncation of the `int64` to
`uint32` (its low 32 bits). -/
def goRTT (recvTS sendTS : Int) : Nat :=
  (((recvTS - sendTS).tdiv 1000000) % (2 ^ 32 : Int)).toNat

/-- Structure `data.Result` (the `receiver` variant): the Go zero value fills
fields that the listener does not set.  The Go field `Type` is renamed
`RType` because `Type` is a Lean keyword. -/
structure Result where
  TimeStamp : Int
  Address : String
  Id : Nat
  ReceiveSite : Nat
  ReceiveHost : Nat
  RTT : Nat
  RType : Nat
  Code : Nat
  RequestID : Nat
  Sequence : Nat
  DataMatch : Bool
deriving Repr, DecidableEq

/--
The echo-reply branch of `v4Listener` in `listener_icmp.go`: build a
`Result` carrying the receive timestamp and peer address; if the magic
byte of the echo data validates, decode the body from `Data[1:17]` and
populate site/host/RTT, otherwise leave them at their zero values; then
always populate identifier, sequence, code and type and emit the Result.
`none` models a runtime panic of the receiver goroutine (a Go slice
expression out of range), after which no Result is emitted.
-/
def v4EchoReply (recvTS : Int) (peer : String) (echoID echoSeq msgCode msgTypeProto : Nat)
    (echoData : List Nat) : Option Result :=
  match goSlice echoData 0 1 with
  | none => none
  | some magicSlice =>
    let r0 : Result :=
      { TimeStamp := recvTS, Address := peer, Id := 0, ReceiveSite := 0, ReceiveHost := 0,
        RTT := 0, RType := 0, Code := 0, RequestID := 0, Sequence := 0, DataMatch := false }
    let withDiag : Option Result :=
      if ValidateMagic magicSlice then
        match goSlice echoData 1 17 with
        | none => none
        | some bodySlice =>
          match Body.Decode bodySlice with
          | Except.error _ => some r0
          | Except.ok echoBody =>
            some { r0 with ReceiveSite := echoBody.Site, ReceiveHost := echoBody.Host,
                           RTT := goRTT recvTS echoBody.Timestamp }
      else some r0
    match withDiag with
    | none => none
    | some r1 =>
      some { r1 with RequestID := echoID % 2 ^ 16, Sequence := echoSeq % 2 ^ 16,
                     Code := msgCode % 2 ^ 16, RType := msgTypeProto % 2 ^ 16 }

/-- C1 (code bug): an echo reply whose data is empty, or whose magic byte
is valid but whose data is shorter than the 17-byte envelope prefix,
makes `v4Listener` slice out of range - a runtime panic of the receiver
goroutine - and no Result at all is emitted, where the claim requires the
diagnostic body to be treated as absent with the Result still emitted.
A reply with a mismatched magic byte is handled as the claim says: the
Result is emitted with site/host/RTT left at zero. -/
theorem C1_receiver_short_data_panics :
    v4EchoReply 0 "192.0.2.1" 31001 7 0 1 [] = none ∧
    v4EchoReply 0 "192.0.2.1" 31001 7 0 1 [146] = none ∧
    v4EchoReply 0 "192.0.2.1" 31001 7 0 1 [146, 1, 2, 3] = none ∧
    (∃ r, v4EchoReply 0 "192.0.2.1" 31001 7 0 1 [7, 1, 2, 3] = some r ∧
      r.ReceiveSite = 0 ∧ r.ReceiveHost = 0 ∧ r.RTT = 0 ∧
      r.RequestID = 31001 ∧ r.Sequence = 7) := by
  refine ⟨rfl, rfl, rfl, ?_⟩
  exact ⟨_, rfl, rfl, rfl, rfl, rfl, rfl⟩

/-! ### Destination data model (`data/data.go`, `data/destination.go`)

Constants from `data/data.go`; `ProtoUDP4 = 1` and `ProtoUDP6 = 2` come
from the `iota` block that skips 0.
-/

def MaxPayloadSize : Nat := 32
def MaxProbeTTL : Nat := 30
def MinProbeInterval : Nat := 200
def MinProbeTTL : Nat := 3
def ProtoUDP4 : Nat := 1
def ProtoUDP6 : Nat := 2

/-- The data fields of `data.Destination` (the `ticker` handle and the
`stopFlag` semaphore are runtime state, modelled separately by
`DestLifecycle`). -/
structure Destination where
  ID : Nat
  Address : String
  Interval : Nat
  Timeout : Nat
  Protocol : Nat
  TTL : Nat
  Active : Bool
  Data : List Nat
deriving Repr, DecidableEq

/-- One row of the `destinations` table as scanned by `GetDestinations`. -/
structure DestRow where
  id : Nat
  active : Bool
  address : String
  protocol : Nat
  interval : Nat
  timeout : Nat
  ttl : Nat
  data : List Nat
deriving Repr, DecidableEq

/--
The per-row body of the `rows.Next()` loop in `GetDestinations`
(`data/destination.go`): skip inactive rows, skip rows whose protocol is
outside `[ProtoUDP4, ProtoUDP6]`, raise a too-low interval to
`MinProbeInterval`, clamp TTL into `[MinProbeTTL, MaxProbeTTL]`, truncate
a too-long payload to `MaxPayloadSize` bytes, and return the resulting
Destination; `none` means `continue` (the row is not appended).
-/
def processRow (r : DestRow) : Option Destination :=
  if r.active = false then none
  else if r.protocol < ProtoUDP4 ∨ ProtoUDP6 < r.protocol then none
  else
    let interval := if r.interval < MinProbeInterval then MinProbeInterval else r.interval
    let ttl := if r.ttl < MinProbeTTL then MinProbeTTL
               else if MaxProbeTTL < r.ttl then MaxProbeTTL else r.ttl
    let payload := if MaxPayloadSize < r.data.length then r.data.take MaxPayloadSize
                   else r.data
    some { ID := r.id, Address := r.address, Interval := interval, Timeout := r.timeout,
           Protocol := r.protocol, TTL := ttl, Active := r.active, Data := payload }

/-- Function `GetDestinations` over its scanned rows: the loop appends exactly the
rows `processRow` accepts, in order. -/
def GetDestinations (rows : List DestRow) : List Destination :=
  rows.filterMap processRow

theorem processRow_eq_some (r : DestRow) (d : Destination) :
    processRow r = some d ↔
      r.active = true ∧ ProtoUDP4 ≤ r.protocol ∧ r.protocol ≤ ProtoUDP6 ∧
      d = { ID := r.id, Address := r.address,
            Interval := if r.interval < MinProbeInterval then MinProbeInterval else r.interval,
            Timeout := r.timeout, Protocol := r.protocol,
            TTL := if r.ttl < MinProbeTTL then MinProbeTTL
                   else if MaxProbeTTL < r.ttl then MaxProbeTTL else r.ttl,
            Active := true,
            Data := if MaxPayloadSize < r.data.length then r.data.take MaxPayloadSize
                    else r.data } := by
  unfold processRow
  rcases hact : r.active with _ | _
  · simp [hact]
  · by_cases hp : r.protocol < ProtoUDP4 ∨ ProtoUDP6 < r.protocol
    · rw [if_neg (by simp [hact]), if_pos hp]
      constructor
      · intro h
        exact Option.noConfusion h
      · rintro ⟨-, h1, h2, -⟩
        exfalso
        simp only [ProtoUDP4, ProtoUDP6] at hp h1 h2
        omega
    · rw [if_neg (by simp [hact]), if_neg hp]
      push_neg at hp
      simp only [Option.some_inj]
      constructor
      · intro h
        exact ⟨by simp, hp.1, hp.2, h.symm⟩
      · rintro ⟨-, -, -, h⟩
        rw [h]

/-- C5: every Destination returned by the read path comes from an active
row with an in-range protocol, with TTL clamped into
[MinProbeTTL, MaxProbeTTL], interval raised to at least MinProbeInterval,
and the payload truncated to at most MaxPayloadSize bytes; inactive rows
and rows with a protocol outside the valid enumeration are omitted. -/
theorem C5_getDestinations_clamps (rows : List DestRow) (d : Destination) :
    d ∈ GetDestinations rows ↔
      ∃ r ∈ rows, r.active = true ∧ ProtoUDP4 ≤ r.protocol ∧ r.protocol ≤ ProtoUDP6 ∧
        d = { ID := r.id, Address := r.address,
              Interval := if r.interval < MinProbeInterval then MinProbeInterval
                          else r.interval,
              Timeout := r.timeout, Protocol := r.protocol,
              TTL := if r.ttl < MinProbeTTL then MinProbeTTL
                     else if MaxProbeTTL < r.ttl then MaxProbeTTL else r.ttl,
              Active := true,
              Data := if MaxPayloadSize < r.data.length then r.data.take MaxPayloadSize
                      else r.data } := by
  unfold GetDestinations
  rw [List.mem_filterMap]
  constructor
  · intro ⟨r, hr, h⟩
    exact ⟨r, hr, (processRow_eq_some r d).mp h⟩
  · intro ⟨r, hr, h⟩
    exact ⟨r, hr, (processRow_eq_some r d).mpr h⟩

/--
Method `Destination.Commit` (`data/destination.go`): the four data-validation
checks run, in source order, before `db.Begin()` is ever called; each
failing check returns a formatted error immediately.  The backing store
is modelled as the list of committed destinations; only the final
`stmt.Exec`/`tx.Commit` appends to it.
-/
def Destination.Commit (d : Destination) (store : List Destination) :
    Except String Unit × List Destination :=
  if d.Protocol < ProtoUDP4 ∨ ProtoUDP6 < d.Protocol then
    (Except.error "protocol is out of bounds", store)
  else if d.Interval < MinProbeInterval then
    (Except.error "interval too low", store)
  else if d.TTL < MinProbeTTL then
    (Except.error "TTL too small", store)
  else if MaxProbeTTL < d.TTL then
    (Except.error "TTL too large", store)
  else if MaxPayloadSize < d.Data.length then
    (Except.error "payload too large", store)
  else
    (Except.ok (), store ++ [d])

/-- C6: committing a Destination whose protocol is outside the valid
enumeration, whose interval is below the minimum, whose TTL is outside
[MinProbeTTL, MaxProbeTTL], or whose payload exceeds the cap, returns an
error synchronously and leaves the backing store unchanged - the
validation happens before any transaction is begun. -/
theorem C6_commit_rejects_invalid (d : Destination) (store : List Destination)
    (h : d.Protocol < ProtoUDP4 ∨ ProtoUDP6 < d.Protocol ∨
         d.Interval < MinProbeInterval ∨ d.TTL < MinProbeTTL ∨
         MaxProbeTTL < d.TTL ∨ MaxPayloadSize < d.Data.length) :
    (∃ e, (Destination.Commit d store).1 = Except.error e) ∧
    (Destination.Commit d store).2 = store := by
  unfold Destination.Commit
  rcases h with h | h | h | h | h | h
  · rw [if_pos (Or.inl h)]
    exact ⟨⟨_, rfl⟩, rfl⟩
  · rw [if_pos (Or.inr h)]
    exact ⟨⟨_, rfl⟩, rfl⟩
  all_goals by_cases hp : d.Protocol < ProtoUDP4 ∨ ProtoUDP6 < d.Protocol
  case pos => rw [if_pos hp]; exact ⟨⟨_, rfl⟩, rfl⟩
  case pos => rw [if_pos hp]; exact ⟨⟨_, rfl⟩, rfl⟩
  case pos => rw [if_pos hp]; exact ⟨⟨_, rfl⟩, rfl⟩
  case pos => rw [if_pos hp]; exact ⟨⟨_, rfl⟩, rfl⟩
  all_goals rw [if_neg hp]
  · rw [if_pos h]
    exact ⟨⟨_, rfl⟩, rfl⟩
  all_goals by_cases hi : d.Interval < MinProbeInterval
  case pos => rw [if_pos hi]; exact ⟨⟨_, rfl⟩, rfl⟩
  case pos => rw [if_pos hi]; exact ⟨⟨_, rfl⟩, rfl⟩
  case pos => rw [if_pos hi]; exact ⟨⟨_, rfl⟩, rfl⟩
  all_goals rw [if_neg hi]
  · rw [if_pos h]
    exact ⟨⟨_, rfl⟩, rfl⟩
  · rw [if_neg (by simp only [MinProbeTTL, MaxProbeTTL] at h ⊢; omega), if_pos h]
    exact ⟨⟨_, rfl⟩, rfl⟩
  · by_cases ht : d.TTL < MinProbeTTL
    · rw [if_pos ht]
      exact ⟨⟨_, rfl⟩, rfl⟩
    · rw [if_neg ht]
      by_cases ht2 : MaxProbeTTL < d.TTL
      · rw [if_pos ht2]
        exact ⟨⟨_, rfl⟩, rfl⟩
      · rw [if_neg ht2, if_pos h]
        exact ⟨⟨_, rfl⟩, rfl⟩

/-- Witness for C6: a concrete out-of-bounds Destination (protocol 0,
also an over-long payload) is rejected and the store stays empty. -/
theorem C6_commit_rejects_invalid_witness :
    (∃ e, (Destination.Commit
      ⟨1, "probe.example", 1000, 0, 0, 10, true, []⟩ []).1 = Except.error e) ∧
    (Destination.Commit ⟨1, "probe.example", 1000, 0, 0, 10, true, []⟩ []).2 = [] :=
  C6_commit_rejects_invalid ⟨1, "probe.example", 1000, 0, 0, 10, true, []⟩ []
    (Or.inl (by simp [ProtoUDP4]))

/-! ### Destination lifecycle (`Destination.Start` / `Destination.Stop`)

Runtime state of one Destination's scheduler, abstracted from
`data/destination.go`:

* `hasTicker` - whether `r.ticker` is non-nil (a `time.NewTicker` has
  been assigned);
* `stopFlag` - the `r.stopFlag` semaphore;
* `loops` - how many scheduler goroutines spawned by `Start` are live
  (a goroutine exits as soon as it observes `stopFlag`).

`Start` unconditionally assigns a fresh ticker and spawns a goroutine;
it contains no already-running check, and it does not reset `stopFlag`,
so a goroutine spawned after a Stop exits at its first loop iteration.
`Stop` calls `r.ticker.Stop()` - a nil-pointer dereference (runtime
panic, modelled as `Except.error`) when `Start` has never run - and sets
`stopFlag`, after which every live loop exits.
-/

structure DestLifecycle where
  hasTicker : Bool
  stopFlag : Bool
  loops : Nat
deriving Repr, DecidableEq

def DestLifecycle.start (s : DestLifecycle) : DestLifecycle :=
  { s with hasTicker := true,
           loops := if s.stopFlag then s.loops else s.loops + 1 }

def DestLifecycle.stop (s : DestLifecycle) : Except String DestLifecycle :=
  if s.hasTicker then
    Except.ok { s with stopFlag := true, loops := 0 }
  else
    Except.error "runtime error: invalid memory address or nil pointer dereference"

/-- A Destination as obtained from the provider, before any Start. -/
def initDestLifecycle : DestLifecycle :=
  { hasTicker := false, stopFlag := false, loops := 0 }

/-- C2 fails on the code: `Start` has no already-running check, so a
second Start on a running Destination leaves two active scheduler loops,
not one; and `Stop` on a never-started Destination dereferences a nil
ticker instead of being a safe no-op. -/
theorem C2_counterexample :
    (initDestLifecycle.start.start.loops = 2 ∧ initDestLifecycle.start.start.loops ≠ 1) ∧
    initDestLifecycle.stop =
      Except.error "runtime error: invalid memory address or nil pointer dereference" := by
  exact ⟨⟨rfl, by decide⟩, rfl⟩

/-- C2 amended: once a Destination has been started (its ticker exists),
Stop is safe and idempotent - it stops the ticker, raises the stop flag
and leaves no scheduler loop running, and a second Stop returns the same
non-running state; but Start is not idempotent: on a Destination whose
stop flag is clear (in particular a running one) each Start spawns one
more scheduler loop, and Stop on a never-started Destination panics on a
nil ticker. -/
theorem C2_lifecycle_amended (s : DestLifecycle) (h : s.hasTicker = true) :
    s.stop = Except.ok { s with stopFlag := true, loops := 0 } ∧
    DestLifecycle.stop { s with stopFlag := true, loops := 0 } =
      Except.ok { s with stopFlag := true, loops := 0 } ∧
    (s.stopFlag = false → s.start.loops = s.loops + 1) ∧
    initDestLifecycle.stop =
      Except.error "runtime error: invalid memory address or nil pointer dereference" := by
  refine ⟨?_, ?_, ?_, rfl⟩
  · unfold DestLifecycle.stop
    rw [if_pos h]
  · unfold DestLifecycle.stop
    rw [if_pos h]
  · intro hs
    unfold DestLifecycle.start
    simp [hs]

/-- Witness for the amended C2 on a started Destination. -/
theorem C2_lifecycle_amended_witness :
    initDestLifecycle.start.stop =
      Except.ok { hasTicker := true, stopFlag := true, loops := 0 } ∧
    initDestLifecycle.start.start.loops = initDestLifecycle.start.loops + 1 := by
  have h := C2_lifecycle_amended initDestLifecycle.start rfl
  exact ⟨h.1, h.2.2.1 rfl⟩

/-! ### Reconciliation (`watchDestinations` in `sender/destwatcher.go`)

One poll-tick pass of `watchDestinations`.  A registry entry is a
`*data.Destination` held in the `destinations` slice; `ref` models the
pointer identity of that Go object (a fetched record carries the
identity of the fresh object `GetDestinations` allocated for it) and
`running` models whether its scheduler is live.  `Stop()` calls are
reported in a list of stopped `ref`s.
-/

structure RegEntry where
  ref : Nat
  id : Nat
  address : String
  interval : Nat
  timeout : Nat
  protocol : Nat
  ttl : Nat
  active : Bool
  data : List Nat
  running : Bool
deriving Repr, DecidableEq

/-- The matched-entry branch: each mutable field of the in-memory
instance is compared and overwritten in place (`foundDestination.X =
newDestination.X`); identity (`ref`) is untouched.  When the active flag
transitions to false the entry's scheduler is stopped
(`foundDestination.Stop()`). -/
def updateFields (e n : RegEntry) : RegEntry :=
  { e with address := n.address, interval := n.interval, ttl := n.ttl,
           timeout := n.timeout, protocol := n.protocol, active := n.active,
           data := n.data,
           running := if e.active ≠ n.active ∧ n.active = false then false
                      else e.running }

/-- Apply `f` to the first entry whose id matches, as the inner
`for ... break` loop does. -/
def updateFirst (nid : Nat) (f : RegEntry → RegEntry) : List RegEntry → List RegEntry
  | [] => []
  | e :: es => if e.id = nid then f e :: es else e :: updateFirst nid f es

/-- The first phase of the reconciliation pass: for each fetched record,
either update the first matching registry entry in place (recording a
stop when the update deactivates it) or append the fetched record itself
to the registry - new entries are not started. -/
def updatePass : List RegEntry → List RegEntry → List RegEntry × List Nat
  | regs, [] => (regs, [])
  | regs, n :: ns =>
    match regs.find? (fun e => e.id == n.id) with
    | some e =>
      let res := updatePass (updateFirst n.id (fun x => updateFields x n) regs) ns
      (res.1, (if e.active ≠ n.active ∧ n.active = false then [e.ref] else []) ++ res.2)
    | none =>
      updatePass (regs ++ [{ n with running := false }]) ns

/-- One scan of the `DeleteCheck` loop up to its `goto`: find the first
registry entry whose id is absent from the fetched set, stop it, and
remove it from the slice. -/
def removeFirstAbsent (ids : List Nat) : List RegEntry → Option (Nat × List RegEntry)
  | [] => none
  | e :: es =>
    if ids.contains e.id then
      (removeFirstAbsent ids es).map (fun p => (p.1, e :: p.2))
    else
      some (e.ref, es)

/-- The `DeleteCheck` loop with its restart-the-scan-on-removal `goto`:
every iteration removes exactly one entry, so the initial registry
length bounds the number of iterations and serves as structural fuel. -/
def deleteCheckFuel (ids : List Nat) : Nat → List RegEntry → List RegEntry × List Nat
  | 0, regs => (regs, [])
  | fuel + 1, regs =>
    match removeFirstAbsent ids regs with
    | none => (regs, [])
    | some p =>
      let res := deleteCheckFuel ids fuel p.2
      (res.1, p.1 :: res.2)

def deleteCheck (ids : List Nat) (regs : List RegEntry) : List RegEntry × List Nat :=
  deleteCheckFuel ids regs.length regs

/-- One full tick of `watchDestinations`: the update/append phase over
the fetched records, then the delete phase over the surviving registry,
returning the new registry and the refs of all entries that were
stopped. -/
def watchDestinationsPass (regs fetched : List RegEntry) :
    List RegEntry × List Nat :=
  let up := updatePass regs fetched
  let del := deleteCheck (fetched.map (fun n => n.id)) up.1
  (del.1, up.2 ++ del.2)

/-- C7: one reconciliation pass over registry [A(v1), B] with a fetch
returning [A(v2), C] updates A in place (same identity `ref`, every
mutable field equal to v2), stops and removes B, and appends C inert
(not running); and when v2 equals v1 field-by-field, A is left exactly
as it was. -/
theorem C7_reconcile_diff (a b a2 c : RegEntry)
    (hid : a2.id = a.id) (hb : b.id ≠ a.id) (hca : c.id ≠ a.id) (hcb : c.id ≠ b.id) :
    watchDestinationsPass [a, b] [a2, c] =
      ([updateFields a a2, { c with running := false }],
       (if a.active ≠ a2.active ∧ a2.active = false then [a.ref] else []) ++ [b.ref]) ∧
    (updateFields a a2).ref = a.ref ∧
    (updateFields a a2).id = a.id ∧
    (updateFields a a2).address = a2.address ∧
    (updateFields a a2).interval = a2.interval ∧
    (updateFields a a2).ttl = a2.ttl ∧
    (updateFields a a2).timeout = a2.timeout ∧
    (updateFields a a2).protocol = a2.protocol ∧
    (updateFields a a2).active = a2.active ∧
    (updateFields a a2).data = a2.data ∧
    ({ c with running := false } : RegEntry).running = false ∧
    (a2.address = a.address → a2.interval = a.interval → a2.ttl = a.ttl →
     a2.timeout = a.timeout → a2.protocol = a.protocol → a2.active = a.active →
     a2.data = a.data → updateFields a a2 = a) := by
  have huid : (updateFields a a2).id = a.id := rfl
  have hbceq : (b.id == c.id) = false := by
    simp only [beq_eq_false_iff_ne]
    exact Ne.symm hcb
  have hba2eq : (b.id == a2.id) = false := by
    simp only [beq_eq_false_iff_ne, hid]
    exact hb
  refine ⟨?_, rfl, rfl, rfl, rfl, rfl, rfl, rfl, rfl, rfl, rfl, ?_⟩
  · have hup : updatePass [a, b] [a2, c] =
        ([updateFields a a2, b, { c with running := false }],
         if a.active ≠ a2.active ∧ a2.active = false then [a.ref] else []) := by
      simp [updatePass, updateFirst, List.find?, hid, hb, huid, hbceq,
            Ne.symm hca, Ne.symm hcb, hcb]
    have hids : ([a2, c].map (fun n => n.id)) = [a2.id, c.id] := rfl
    have hdel : deleteCheck [a2.id, c.id]
        [updateFields a a2, b, { c with running := false }] =
        ([updateFields a a2, { c with running := false }], [b.ref]) := by
      simp [deleteCheck, deleteCheckFuel, removeFirstAbsent, hid, hb, huid,
            hbceq, hba2eq, Ne.symm hca, Ne.symm hcb, hcb]
    simp only [watchDestinationsPass]
    rw [hup]
    rw [hids, hdel]
  · intro h1 h2 h3 h4 h5 h6 h7
    simp [updateFields, h1, h2, h3, h4, h5, h6, h7]

/-- Witness for C7 on concrete entries with distinct ids. -/
theorem C7_reconcile_diff_witness :
    watchDestinationsPass
      [⟨10, 1, "a.example", 1000, 5, 1, 10, true, [1], true⟩,
       ⟨11, 2, "b.example", 1000, 5, 1, 10, true, [2], true⟩]
      [⟨20, 1, "a2.example", 2000, 6, 2, 11, true, [3], false⟩,
       ⟨21, 3, "c.example", 3000, 7, 1, 12, true, [4], false⟩] =
      ([updateFields ⟨10, 1, "a.example", 1000, 5, 1, 10, true, [1], true⟩
          ⟨20, 1, "a2.example", 2000, 6, 2, 11, true, [3], false⟩,
        ⟨21, 3, "c.example", 3000, 7, 1, 12, true, [4], false⟩],
       [11]) := by
  have h := C7_reconcile_diff
    ⟨10, 1, "a.example", 1000, 5, 1, 10, true, [1], true⟩
    ⟨11, 2, "b.example", 1000, 5, 1, 10, true, [2], true⟩
    ⟨20, 1, "a2.example", 2000, 6, 2, 11, true, [3], false⟩
    ⟨21, 3, "c.example", 3000, 7, 1, 12, true, [4], false⟩
    rfl (by decide) (by decide) (by decide)
  have h1 := h.1
  simpa using h1

/-! ### Result writer (`resultWriter` in `receiver/main.go`,
`BatchResultWriter` in `data`)

The writer consumes Results from its channel with
`for result := range resultchan`.  This repository is GOPATH-era Go with
no `go.mod`, so the loop has the pre-Go-1.22 semantics: `result` is a
single variable allocated once per loop, and
`resultBuf = append(resultBuf, &result)` appends the same address on
every iteration.  The buffer `resultBuf : []*data.Result` therefore
holds `len(resultBuf)` aliases of that one variable, and dereferencing
any entry at any instant yields the loop variable's current value - at
batch time, the Result whose arrival triggered the batch.  The buffer
state is thus fully described by its length `bufLen`, and the batch /
fallback payload by `List.replicate bufLen r` where `r` is the arriving
Result.

The persistence sink is abstracted by two oracles: `batchOk buf` is
whether the single transactional `BatchResultWriter(resultBuf, sqldb)`
call succeeds for the dereferenced buffer contents, and `singleOk r`
whether an individual `r.Commit(sqldb)` succeeds.  `WriteEvent` records,
in order, every commit attempt together with the metrics counter it
increments.
-/

inductive WriteEvent where
  | batchCommit : List Result → WriteEvent
  | failedBatchCommit : List Result → WriteEvent
  | singleCommit : Result → WriteEvent
  | failedSingleCommit : Result → WriteEvent
deriving Repr, DecidableEq

/-- One individual `r.Commit(sqldb)` with its metrics counter:
`AddDbSingleCommits` on success, `AddDbFailedSingleCommits` on error. -/
def commitOne (singleOk : Result → Bool) (r : Result) : WriteEvent :=
  if singleOk r then WriteEvent.singleCommit r else WriteEvent.failedSingleCommit r

/--
The body of `for result := range resultchan` in `resultWriter`
(`receiver/main.go`), given the buffer length and the Result just
assigned to the loop variable:

* `ResultBatchSize == 0` - commit the arriving Result individually;
* `len(resultBuf) >= ResultBatchSize` - attempt the batched
  transactional write of the dereferenced buffer, which at this moment
  is `bufLen` copies of the arriving (triggering) Result because every
  buffered pointer is `&result`; on failure fall back to one individual
  commit per buffered entry - each again dereferencing to the
  triggering Result; either way the buffer is emptied afterwards and
  the triggering Result is not appended;
* otherwise - append `&result` to the buffer (length + 1; the values
  that arrived earlier are not retained anywhere).

Returns the new buffer length and the commit attempts made by this
iteration.
-/
def resultWriterStep (batchSize : Nat) (batchOk : List Result → Bool)
    (singleOk : Result → Bool) (bufLen : Nat) (r : Result) :
    Nat × List WriteEvent :=
  if batchSize = 0 then
    (bufLen, [commitOne singleOk r])
  else if batchSize ≤ bufLen then
    if batchOk (List.replicate bufLen r) then
      (0, [WriteEvent.batchCommit (List.replicate bufLen r)])
    else
      (0, WriteEvent.failedBatchCommit (List.replicate bufLen r) ::
          (List.replicate bufLen r).map (commitOne singleOk))
  else
    (bufLen + 1, [])

/-- The writer loop folded over the Results consumed from the channel. -/
def resultWriterRun (batchSize : Nat) (batchOk : List Result → Bool)
    (singleOk : Result → Bool) : Nat → List Result → Nat × List WriteEvent
  | bufLen, [] => (bufLen, [])
  | bufLen, r :: rs =>
    let st := resultWriterStep batchSize batchOk singleOk bufLen r
    let rest := resultWriterRun batchSize batchOk singleOk st.1 rs
    (rest.1, st.2 ++ rest.2)

/-- C8 fails on the code: with batch size 2, distinct Results a, b
buffered and a distinct Result c triggering a failing batch, the two
fallback commit attempts both persist copies of c - the buffered values
a and b are never committed by any attempt, where the claim requires one
commit attempt per buffered Result. -/
theorem C8_counterexample :
    resultWriterRun 2 (fun _ => false) (fun _ => true) 0
      [⟨0, "a", 0, 0, 0, 0, 0, 0, 1, 1, false⟩,
       ⟨0, "b", 0, 0, 0, 0, 0, 0, 2, 2, false⟩,
       ⟨0, "c", 0, 0, 0, 0, 0, 0, 3, 3, false⟩] =
      (0, [WriteEvent.failedBatchCommit
             [⟨0, "c", 0, 0, 0, 0, 0, 0, 3, 3, false⟩,
              ⟨0, "c", 0, 0, 0, 0, 0, 0, 3, 3, false⟩],
           WriteEvent.singleCommit ⟨0, "c", 0, 0, 0, 0, 0, 0, 3, 3, false⟩,
           WriteEvent.singleCommit ⟨0, "c", 0, 0, 0, 0, 0, 0, 3, 3, false⟩]) ∧
    WriteEvent.singleCommit ⟨0, "a", 0, 0, 0, 0, 0, 0, 1, 1, false⟩ ∉
      (resultWriterRun 2 (fun _ => false) (fun _ => true) 0
        [⟨0, "a", 0, 0, 0, 0, 0, 0, 1, 1, false⟩,
         ⟨0, "b", 0, 0, 0, 0, 0, 0, 2, 2, false⟩,
         ⟨0, "c", 0, 0, 0, 0, 0, 0, 3, 3, false⟩]).2 ∧
    WriteEvent.singleCommit ⟨0, "b", 0, 0, 0, 0, 0, 0, 2, 2, false⟩ ∉
      (resultWriterRun 2 (fun _ => false) (fun _ => true) 0
        [⟨0, "a", 0, 0, 0, 0, 0, 0, 1, 1, false⟩,
         ⟨0, "b", 0, 0, 0, 0, 0, 0, 2, 2, false⟩,
         ⟨0, "c", 0, 0, 0, 0, 0, 0, 3, 3, false⟩]).2 := by
  decide

/-- C8 amended: when the batched transactional write of a full buffer of
N entries fails, the writer issues exactly N individual fallback commit
attempts - one per buffer slot, each counted independently as a
single-commit success or failure - but every buffer slot aliases the
single range-loop variable, so the batch payload and every fallback
attempt persist copies of the triggering Result rather than the values
that arrived earlier; the buffer is emptied after the batch attempt
whether it succeeded or the fallback ran; with batch size 0 every Result
is committed individually on arrival. -/
theorem C8_batch_fallback_aliased (batchSize : Nat) (batchOk : List Result → Bool)
    (singleOk : Result → Bool) (bufLen : Nat) (r : Result)
    (hpos : 0 < batchSize) (hfull : batchSize ≤ bufLen) :
    (batchOk (List.replicate bufLen r) = false →
      resultWriterStep batchSize batchOk singleOk bufLen r =
        (0, WriteEvent.failedBatchCommit (List.replicate bufLen r) ::
            (List.replicate bufLen r).map (commitOne singleOk))) ∧
    (batchOk (List.replicate bufLen r) = true →
      resultWriterStep batchSize batchOk singleOk bufLen r =
        (0, [WriteEvent.batchCommit (List.replicate bufLen r)])) ∧
    ((List.replicate bufLen r).map (commitOne singleOk)).length = bufLen ∧
    (∀ e ∈ (List.replicate bufLen r).map (commitOne singleOk),
      e = commitOne singleOk r) ∧
    resultWriterStep 0 batchOk singleOk bufLen r = (bufLen, [commitOne singleOk r]) := by
  refine ⟨?_, ?_, by simp, ?_, ?_⟩
  · intro hfail
    unfold resultWriterStep
    rw [if_neg (by omega), if_pos hfull, if_neg (by simp [hfail])]
  · intro hok
    unfold resultWriterStep
    rw [if_neg (by omega), if_pos hfull, if_pos hok]
  · intro e he
    simp only [List.mem_map, List.mem_replicate] at he
    obtain ⟨a, ⟨-, ha⟩, hea⟩ := he
    rw [← hea, ha]
  · unfold resultWriterStep
    rw [if_pos rfl]

/-- Witness for the amended C8: a failing batch over a buffer of two
aliases, triggered by a concrete Result, makes exactly two individual
commit attempts, both of copies of the trigger. -/
theorem C8_batch_fallback_aliased_witness :
    resultWriterStep 2 (fun _ => false) (fun _ => true) 2
      ⟨0, "c", 0, 0, 0, 0, 0, 0, 3, 3, false⟩ =
      (0, [WriteEvent.failedBatchCommit
             [⟨0, "c", 0, 0, 0, 0, 0, 0, 3, 3, false⟩,
              ⟨0, "c", 0, 0, 0, 0, 0, 0, 3, 3, false⟩],
           WriteEvent.singleCommit ⟨0, "c", 0, 0, 0, 0, 0, 0, 3, 3, false⟩,
           WriteEvent.singleCommit ⟨0, "c", 0, 0, 0, 0, 0, 0, 3, 3, false⟩]) := by
  have h := C8_batch_fallback_aliased 2 (fun _ => false) (fun _ => true) 2
    ⟨0, "c", 0, 0, 0, 0, 0, 0, 3, 3, false⟩ (by decide) (by decide)
  rw [h.1 rfl]
  rfl

theorem resultWriterRun_append (bs : Nat) (bo : List Result → Bool)
    (so : Result → Bool) (bufLen : Nat) (xs ys : List Result) :
    resultWriterRun bs bo so bufLen (xs ++ ys) =
      ((resultWriterRun bs bo so (resultWriterRun bs bo so bufLen xs).1 ys).1,
       (resultWriterRun bs bo so bufLen xs).2 ++
         (resultWriterRun bs bo so (resultWriterRun bs bo so bufLen xs).1 ys).2) := by
  induction xs generalizing bufLen with
  | nil => simp [resultWriterRun]
  | cons x xs ih => simp [resultWriterRun, ih]

/-- While the buffer still has room for the whole remaining input, the
writer only accumulates aliases: no commit attempt is made. -/
theorem resultWriterRun_fill (bs : Nat) (bo : List Result → Bool)
    (so : Result → Bool) (hn : 0 < bs) :
    ∀ (rs : List Result) (bufLen : Nat), bufLen + rs.length ≤ bs →
      resultWriterRun bs bo so bufLen rs = (bufLen + rs.length, []) := by
  intro rs
  induction rs with
  | nil =>
    intro bufLen h
    simp [resultWriterRun]
  | cons r rs ih =>
    intro bufLen h
    have hlt : bufLen < bs := by
      simp only [List.length_cons] at h
      omega
    have hstep : resultWriterStep bs bo so bufLen r = (bufLen + 1, []) := by
      unfold resultWriterStep
      rw [if_neg (by omega), if_neg (by omega)]
    simp only [resultWriterRun, hstep]
    rw [ih (bufLen + 1) (by simp only [List.length_cons] at h ⊢; omega)]
    simp only [List.length_cons, List.nil_append]
    congr 1
    omega

/-- C10 fails on the code: with batch size 1 and two distinct Results,
the second (triggering) Result is exactly what the batch submits - one
copy per buffered alias - while the first, buffered Result is never
submitted by any commit attempt; the claim asserts the opposite (the
buffered Result written, the trigger discarded). -/
theorem C10_counterexample :
    resultWriterRun 1 (fun _ => true) (fun _ => true) 0
      [⟨0, "a", 0, 0, 0, 0, 0, 0, 1, 1, false⟩,
       ⟨0, "b", 0, 0, 0, 0, 0, 0, 2, 2, false⟩] =
      (0, [WriteEvent.batchCommit [⟨0, "b", 0, 0, 0, 0, 0, 0, 2, 2, false⟩]]) ∧
    WriteEvent.batchCommit [⟨0, "a", 0, 0, 0, 0, 0, 0, 1, 1, false⟩] ∉
      (resultWriterRun 1 (fun _ => true) (fun _ => true) 0
        [⟨0, "a", 0, 0, 0, 0, 0, 0, 1, 1, false⟩,
         ⟨0, "b", 0, 0, 0, 0, 0, 0, 2, 2, false⟩]).2 ∧
    (⟨0, "a", 0, 0, 0, 0, 0, 0, 1, 1, false⟩ : Result) ≠
      ⟨0, "b", 0, 0, 0, 0, 0, 0, 2, 2, false⟩ := by
  decide

/-- C10 amended: with batching enabled (batch size n > 0), a Result
arriving while the buffer already holds n aliases triggers one batch
attempt and is itself not appended, and the buffer is emptied; but
because every buffered pointer aliases the single range-loop variable,
the batch (and, on its failure, each of the n fallback commits) submits
copies of that triggering Result - so of every n+1 consecutive Results
consumed from an empty buffer, the first n are never submitted to the
persistence sink and every commit attempt of the pass carries only the
(n+1)-th. -/
theorem C10_trigger_replaces_buffer (n : Nat) (bo : List Result → Bool)
    (so : Result → Bool) (rs : List Result) (x : Result)
    (hn : 0 < n) (hlen : rs.length = n) :
    resultWriterRun n bo so 0 (rs ++ [x]) =
      (0, if bo (List.replicate n x) then
            [WriteEvent.batchCommit (List.replicate n x)]
          else
            WriteEvent.failedBatchCommit (List.replicate n x) ::
              (List.replicate n x).map (commitOne so)) ∧
    (∀ e ∈ (resultWriterRun n bo so 0 (rs ++ [x])).2,
      e = WriteEvent.batchCommit (List.replicate n x) ∨
      e = WriteEvent.failedBatchCommit (List.replicate n x) ∨
      e = commitOne so x) := by
  have hfill : resultWriterRun n bo so 0 rs = (n, []) := by
    have h := resultWriterRun_fill n bo so hn rs 0 (by omega)
    simpa [hlen] using h
  have hstep : resultWriterStep n bo so n x =
      (0, if bo (List.replicate n x) then
            [WriteEvent.batchCommit (List.replicate n x)]
          else
            WriteEvent.failedBatchCommit (List.replicate n x) ::
              (List.replicate n x).map (commitOne so)) := by
    unfold resultWriterStep
    rw [if_neg (by omega), if_pos (le_refl n)]
    by_cases hbo : bo (List.replicate n x)
    · rw [if_pos hbo, if_pos hbo]
    · rw [if_neg hbo, if_neg hbo]
  have hrun : resultWriterRun n bo so 0 (rs ++ [x]) =
      (0, if bo (List.replicate n x) then
            [WriteEvent.batchCommit (List.replicate n x)]
          else
            WriteEvent.failedBatchCommit (List.replicate n x) ::
              (List.replicate n x).map (commitOne so)) := by
    rw [resultWriterRun_append, hfill]
    simp [resultWriterRun, hstep]
  refine ⟨hrun, ?_⟩
  intro e he
  rw [hrun] at he
  by_cases hbo : bo (List.replicate n x)
  · rw [if_pos hbo] at he
    simp only [List.mem_singleton] at he
    exact Or.inl he
  · rw [if_neg hbo] at he
    rcases List.mem_cons.mp he with h1 | h2
    · exact Or.inr (Or.inl h1)
    · simp only [List.mem_map, List.mem_replicate] at h2
      obtain ⟨a, ⟨-, ha⟩, hea⟩ := h2
      right; right
      rw [← hea, ha]

/-- Witness for the amended C10 with batch size 1: a buffered Result a
followed by the trigger b makes the sink receive exactly one copy of b. -/
theorem C10_trigger_replaces_buffer_witness :
    resultWriterRun 1 (fun _ => true) (fun _ => true) 0
      ([⟨0, "a", 0, 0, 0, 0, 0, 0, 1, 1, false⟩] ++
       [⟨0, "b", 0, 0, 0, 0, 0, 0, 2, 2, false⟩]) =
      (0, [WriteEvent.batchCommit [⟨0, "b", 0, 0, 0, 0, 0, 0, 2, 2, false⟩]]) := by
  have h := C10_trigger_replaces_buffer 1 (fun _ => true) (fun _ => true)
    [⟨0, "a", 0, 0, 0, 0, 0, 0, 1, 1, false⟩]
    ⟨0, "b", 0, 0, 0, 0, 0, 0, 2, 2, false⟩ (by decide) (by decide)
  rw [h.1]
  rfl

/-! ### Sender dispatch validation (`ping` in `sender/main.go`)

Per dispatch event the Sender runs

    if dest == nil || dest.Address == "" || dest.Protocol == 0 {
      metrics.AddEmptyDest(1); continue
    }
    ...
    if dest.Protocol == ProtoUDP6 { v6 = true; conn = v6conn; ... }

so the only protocol check before transmission is `!= 0`; any non-zero
protocol other than `ProtoUDP6` is sent over the v4 socket.
-/

inductive SendAction where
  | discarded
  | sendV4
  | sendV6
deriving Repr, DecidableEq

/-- Which path one dispatch event takes through `ping`: count-and-discard
(`AddEmptyDest`), or transmission over the v4 or the v6 socket.  `none`
models a nil `*Destination` pointer received from the channel. -/
def pingDispatch (dest : Option Destination) : SendAction :=
  match dest with
  | none => SendAction.discarded
  | some d =>
    if d.Address = "" ∨ d.Protocol = 0 then SendAction.discarded
    else if d.Protocol = ProtoUDP6 then SendAction.sendV6
    else SendAction.sendV4

/-- C9 fails on the code: a dispatched Destination whose protocol value 3
lies outside the valid enumeration (ProtoUDP4 = 1, ProtoUDP6 = 2) is not
discarded - the Sender transmits it over the v4 socket. -/
theorem C9_counterexample :
    pingDispatch (some ⟨1, "probe.example", 1000, 0, 3, 10, true, []⟩) =
      SendAction.sendV4 ∧
    pingDispatch (some ⟨1, "probe.example", 1000, 0, 3, 10, true, []⟩) ≠
      SendAction.discarded := by
  exact ⟨rfl, by decide⟩

/-- C9 amended: per dispatch event the Sender validates only that the
Destination is non-null, has a non-empty address and a non-zero
protocol, counting and discarding the event otherwise; a destination
with protocol ProtoUDP6 is transmitted over the v6 socket and every
other non-zero protocol - including values outside the valid
enumeration - is transmitted over the v4 socket, not discarded. -/
theorem C9_dispatch_validation (d : Destination) (haddr : d.Address ≠ "") :
    pingDispatch none = SendAction.discarded ∧
    pingDispatch (some { d with Address := "" }) = SendAction.discarded ∧
    (d.Protocol = 0 → pingDispatch (some d) = SendAction.discarded) ∧
    (d.Protocol = ProtoUDP6 → pingDispatch (some d) = SendAction.sendV6) ∧
    (d.Protocol ≠ 0 → d.Protocol ≠ ProtoUDP6 →
      pingDispatch (some d) = SendAction.sendV4) := by
  refine ⟨rfl, by simp [pingDispatch], ?_, ?_, ?_⟩
  · intro h0
    simp [pingDispatch, h0]
  · intro hp
    have hp0 : d.Protocol ≠ 0 := by
      rw [hp]
      simp [ProtoUDP6]
    simp [pingDispatch, haddr, hp0, hp, ProtoUDP6]
  · intro hp0 hp6
    simp [pingDispatch, haddr, hp0, hp6]

/-- Witness for the amended C9 at concrete Destinations. -/
theorem C9_dispatch_validation_witness :
    pingDispatch (some ⟨1, "probe.example", 1000, 0, 0, 10, true, []⟩) =
      SendAction.discarded ∧
    pingDispatch (some ⟨1, "probe.example", 1000, 0, 2, 10, true, []⟩) =
      SendAction.sendV6 ∧
    pingDispatch (some ⟨1, "probe.example", 1000, 0, 3, 10, true, []⟩) =
      SendAction.sendV4 := by
  refine ⟨?_, ?_, ?_⟩
  · exact (C9_dispatch_validation ⟨1, "probe.example", 1000, 0, 0, 10, true, []⟩
      (by decide)).2.2.1 rfl
  · exact (C9_dispatch_validation ⟨1, "probe.example", 1000, 0, 2, 10, true, []⟩
      (by decide)).2.2.2.1 rfl
  · exact (C9_dispatch_validation ⟨1, "probe.example", 1000, 0, 3, 10, true, []⟩
      (by decide)).2.2.2.2 (by decide) (by decide)

end Pinger
